import Mathlib

/-!
Verification of the helix-datadog-feeder log pipeline.

The delivery client lives in `src/datadog.js` (class `DataDogLogger`,
the `fetchRetry` wrapper, `LOG_LEVELS`, `createLogEntry`, `sendEntries`).
The field extractor (`src/extract-fields.js`) and the pipeline
orchestrator (`src/index.js`) are not part of the source tree snapshot;
where a property depends on them, the corresponding definition is
modelled from the specification and says so in its doc comment.

Machine strings are modelled over `String`; JavaScript string helpers
(`indexOf`, `toUpperCase`, `toLowerCase`, `trimEnd`) are re-implemented
below on `List Char` so that all definitions are executable by kernel
reduction.
-/

namespace DatadogFeeder

/-- ASCII-style upper-casing, `String.prototype.toUpperCase` on the
characters used by this service. -/
def jsToUpper (s : String) : String := ⟨s.data.map Char.toUpper⟩

/-- ASCII-style lower-casing, `String.prototype.toLowerCase`. -/
def jsToLower (s : String) : String := ⟨s.data.map Char.toLower⟩

/-- JavaScript `String.prototype.trimEnd`: drop trailing whitespace. -/
def jsTrimEnd (s : String) : String := ⟨(s.data.reverse.dropWhile Char.isWhitespace).reverse⟩

/-- JavaScript `Array.prototype.indexOf` on a list of strings: the index of the first
occurrence, or `-1` when the element does not occur. -/
def jsIndexOf : List String → String → Int
  | [], _ => -1
  | x :: xs, s =>
    if x = s then 0
    else
      let r := jsIndexOf xs s
      if r = -1 then -1 else r + 1

/-- The `LOG_LEVELS` list from `src/datadog.js`: the fixed ascending severity scale. -/
def LOG_LEVELS : List String :=
  ["TRACE", "SILLY", "DEBUG", "VERBOSE", "INFO", "WARN", "ERROR"]

/-- The threshold computation of the constructor (`src/datadog.js` lines 109-110):
`minLevel = LOG_LEVELS.indexOf(level.toUpperCase())`, falling back to the
index of `INFO` when the lookup yields `-1`. -/
def mkMinLevel (level : String) : Int :=
  let minLevel := jsIndexOf LOG_LEVELS (jsToUpper level)
  if minLevel ≠ -1 then minLevel else jsIndexOf LOG_LEVELS "INFO"

/-- Model of `DataDogLogger.shouldSendLevel`: `LOG_LEVELS.indexOf(level) >= this._minLevel`. -/
def shouldSendLevel (minLevel : Int) (level : String) : Bool :=
  jsIndexOf LOG_LEVELS level ≥ minLevel

/-! ### Log events and field extraction -/

/-- The `extractedFields` structure of a CloudWatch log event (§6 inbound
payload shape): all fields optional. -/
structure ExtractedFields where
  event : Option String := none
  level : Option String := none
  request_id : Option String := none
  timestamp : Option String := none
deriving DecidableEq

/-- A `LogEvent` from the aggregator batch (typedef in `src/datadog.js`). -/
structure LogEvent where
  id : Option String := none
  timestamp : Int := 0
  message : Option String := none
  extractedFields : Option ExtractedFields := none
deriving DecidableEq

/-- The normalized fields produced by the field extractor and consumed by
`createLogEntry`: message text, severity candidate, optional correlation id
and origin timestamp. -/
structure Fields where
  message : String
  level : String
  requestId : Option String := none
  timestamp : Option String := none
deriving DecidableEq

/-- Split a character list at the first tab: `some (before, after)` when a tab
occurs, `none` otherwise. -/
def breakAtTab : List Char → Option (List Char × List Char)
  | [] => none
  | c :: cs =>
    if c = '\t' then some ([], cs)
    else match breakAtTab cs with
      | some (a, b) => some (c :: a, b)
      | none => none

/-- Modelled from the spec: `extractFields` of `src/extract-fields.js`, which is
not part of the source snapshot (§4.1 Field Extractor). Rules in priority
order: a line with no extracted-fields structure fails extraction (the only
failure case); an explicit severity field is used verbatim case-normalized to
upper case with the paired event text as the message; otherwise a leading token
followed by a tab in the event text becomes the severity candidate and the
remainder the message; with no such token the whole text is the message and the
severity defaults to INFO; correlation id and origin timestamp are copied
through when present. (Trailing-whitespace trimming is done by the consumer
`createLogEntry`, which calls `trimEnd`.) -/
def extractFields (ev : LogEvent) : Option Fields :=
  match ev.extractedFields with
  | none => none
  | some ef =>
    let event := ef.event.getD ""
    match ef.level with
    | some lvl =>
      some { message := event, level := jsToUpper lvl,
             requestId := ef.request_id, timestamp := ef.timestamp }
    | none =>
      match breakAtTab event.data with
      | some (tok, rest) =>
        some { message := ⟨rest⟩, level := ⟨tok⟩,
               requestId := ef.request_id, timestamp := ef.timestamp }
      | none =>
        some { message := event, level := "INFO",
               requestId := ef.request_id, timestamp := ef.timestamp }

/-! ### The DataDog logger -/

/-- Constructor options of `DataDogLogger` (`src/datadog.js` lines 91-101). -/
structure LoggerOpts where
  apiKey : String
  funcName : String
  service : String
  version : Option String := none
  logStream : Option String := none
  apiUrl : String := "https://http-intake.logs.datadoghq.com"
  level : String := "info"
deriving DecidableEq

/-- The `_baseEntry` object merged into every posted entry. -/
structure BaseEntry where
  service : String
  ddsource : String
  hostname : String
  ddtags : Option String
deriving DecidableEq

/-- The `_baseEntry` construction (`src/datadog.js` lines 112-119): constant
`ddsource`/`hostname`, the configured service, and `ddtags` only when
`version` is truthy (in JavaScript a string is truthy iff non-empty). -/
def mkBaseEntry (opts : LoggerOpts) : BaseEntry :=
  { service := opts.service
    ddsource := "aws-lambda"
    hostname := "lambda"
    ddtags := match opts.version with
      | some v => if v = "" then none else some ("version:" ++ v)
      | none => none }

/-- The state of a constructed `DataDogLogger`. -/
structure Logger where
  apiKey : String
  functionName : String
  logStream : Option String
  apiUrl : String
  minLevel : Int
  baseEntry : BaseEntry
deriving DecidableEq

/-- The `DataDogLogger` constructor. -/
def mkLogger (opts : LoggerOpts) : Logger :=
  { apiKey := opts.apiKey
    functionName := opts.funcName
    logStream := opts.logStream
    apiUrl := opts.apiUrl
    minLevel := mkMinLevel opts.level
    baseEntry := mkBaseEntry opts }

/-! ### Log entry creation -/

/-- The `text` object serialized into the `message` field of a log entry
(`src/datadog.js` lines 173-184). -/
structure Detail where
  invocationId : String
  functionName : String
  message : String
  level : String
  timestamp : Option String
  logStream : Option String
deriving DecidableEq

/-- JSON escaping of one character, as `JSON.stringify` does for the
characters this service emits. -/
def jsonEscapeChar (c : Char) : String :=
  if c = '"' then "\\\""
  else if c = '\\' then "\\\\"
  else if c = '\n' then "\\n"
  else if c = '\t' then "\\t"
  else if c = '\r' then "\\r"
  else String.singleton c

/-- JSON escaping of a string body. -/
def jsonEscape (s : String) : String := String.join (s.data.map jsonEscapeChar)

/-- A JSON string literal. -/
def jsonStr (s : String) : String := "\"" ++ jsonEscape s ++ "\""

/-- The `JSON.stringify` serialization of the `text` object of `createLogEntry`: fields in
insertion order `inv.invocationId`, `inv.functionName`, `message`, `level`,
then `timestamp` and `logStream` only when present (`JSON.stringify` drops
`undefined` members). -/
def stringifyDetail (d : Detail) : String :=
  "\x7b\"inv\":\x7b\"invocationId\":" ++ jsonStr d.invocationId
    ++ ",\"functionName\":" ++ jsonStr d.functionName
    ++ "\x7d,\"message\":" ++ jsonStr d.message
    ++ ",\"level\":" ++ jsonStr d.level
    ++ (match d.timestamp with
        | some ts => ",\"timestamp\":" ++ jsonStr ts
        | none => "")
    ++ (match d.logStream with
        | some ls => ",\"logStream\":" ++ jsonStr ls
        | none => "")
    ++ "\x7d"

/-- A `DataDogLogEntry` (typedef in `src/datadog.js`). -/
structure DataDogLogEntry where
  timestamp : Int
  message : String
  level : String
deriving DecidableEq

/-- The `text` object built by `createLogEntry` from the extracted fields:
`requestId` or the sentinel (a JavaScript falsy check, so the empty string also
becomes the sentinel), trimmed message, lower-cased raw level, the origin
timestamp, and the log stream when configured. -/
def detailOf (lg : Logger) (f : Fields) : Detail :=
  { invocationId := match f.requestId with
      | some r => if r = "" then "n/a" else r
      | none => "n/a"
    functionName := lg.functionName
    message := jsTrimEnd f.message
    level := jsToLower f.level
    timestamp := f.timestamp
    logStream := lg.logStream }

/-- Model of `DataDogLogger.createLogEntry` (`src/datadog.js` lines 161-190): `null`
when extraction fails; otherwise the routing level is the extracted level when
it is on the scale and `INFO` otherwise, and the message is the stringified
detail object. -/
def createLogEntry (lg : Logger) (ev : LogEvent) : Option DataDogLogEntry :=
  match extractFields ev with
  | none => none
  | some f =>
    let level := if jsIndexOf LOG_LEVELS f.level ≠ -1 then f.level else "INFO"
    some { timestamp := ev.timestamp
           message := stringifyDetail (detailOf lg f)
           level := level }

/-! ### sendEntries -/

/-- One entry of the posted payload: a log entry spread together with the base
entry (`{...logEntry, ...this._baseEntry}`). -/
structure OutEntry where
  timestamp : Int
  message : String
  level : String
  service : String
  ddsource : String
  hostname : String
  ddtags : Option String
deriving DecidableEq

/-- The spread `{...logEntry, ...this._baseEntry}` in `sendEntries`. -/
def mergeBase (b : BaseEntry) (e : DataDogLogEntry) : OutEntry :=
  { timestamp := e.timestamp
    message := e.message
    level := e.level
    service := b.service
    ddsource := b.ddsource
    hostname := b.hostname
    ddtags := b.ddtags }

/-- The result object returned by `sendEntries`. -/
structure SendResult where
  rejected : List LogEvent
  sent : Nat
deriving DecidableEq

/-- The classification loop of `sendEntries` (`src/datadog.js` lines 200-210):
walk the events in order; an event whose entry creation fails goes to
`rejected`, an event whose entry passes the severity filter (checked on the
upper-cased entry level) goes to `logEntries`, anything else is dropped. -/
def processEvents (lg : Logger) : List LogEvent → List LogEvent × List DataDogLogEntry
  | [] => ([], [])
  | ev :: evs =>
    let r := processEvents lg evs
    match createLogEntry lg ev with
    | none => (ev :: r.1, r.2)
    | some e =>
      if shouldSendLevel lg.minLevel (jsToUpper e.level) then (r.1, e :: r.2) else r

/-- Model of `DataDogLogger.sendEntries` (`src/datadog.js` lines 199-218): classify all
events, post the merged payload only when at least one entry survived
(`if (logEntries.length)`), and return `{ rejected, sent: logEntries.length }`.
The second component is the payload of the network request that is issued,
`none` when no request is made. -/
def sendEntries (lg : Logger) (evs : List LogEvent) :
    SendResult × Option (List OutEntry) :=
  let p := processEvents lg evs
  ({ rejected := p.1, sent := p.2.length },
   if p.2.isEmpty then none else some (p.2.map (mergeBase lg.baseEntry)))

/-! ### The retrying fetch wrapper -/

/-- The outcome the transport produces for one attempt: a `FetchError`
(transport-level failure), any other thrown error, or an HTTP response with a
status code and body text. -/
inductive Outcome where
  | fetchErr (msg : String)
  | otherErr (msg : String)
  | resp (status : Nat) (body : String)
deriving DecidableEq

/-- The terminal error of a delivery: the last transport error after retries
are exhausted, a non-`FetchError` rethrown unmodified, or the rejection built
from a non-2xx response. -/
inductive DeliveryError where
  | fetch (msg : String)
  | other (msg : String)
  | badStatus (status : Nat) (body : String)
deriving DecidableEq

/-- The message of the raised error. For a non-2xx response `retryOn` throws
`` new Error(`Failed to send logs with status ${response.status}: ${await
response.text()}`) `` (`src/datadog.js` line 68). -/
def errMessage : DeliveryError → String
  | .fetch m => m
  | .other m => m
  | .badStatus s b => "Failed to send logs with status " ++ toString s ++ ": " ++ b

/-- The retry bound of `fetchRetry.retryOn` outside the test environment
(`src/datadog.js` line 60): `retries = 2`. -/
def RETRIES : Nat := 2

/-- The `retryDelay` function outside the test environment (`src/datadog.js` line 57):
`2 ** attempt * 1000` milliseconds — 1000, 2000, 4000, … -/
def retryDelay (attempt : Nat) : Nat := 2 ^ attempt * 1000

/-- The `response.ok` predicate: status in the 2xx range. -/
def respOk (status : Nat) : Bool := 200 ≤ status && status < 300

/-- Model of the wrapped `fetchRetry` loop (`src/datadog.js` lines 51-72),
driven by the per-attempt outcomes `outs`. A `FetchError` retries while
`attempt < RETRIES` (waiting `retryDelay attempt` before the next attempt) and
is raised once the bound is reached; any other error is rethrown at once; a
non-ok response raises the status error at once; an ok response succeeds.
Returns the list of backoff delays waited and the terminal result. -/
def fetchRetryGo (outs : Nat → Outcome) (attempt : Nat) :
    List Nat × Except DeliveryError Nat :=
  match outs attempt with
  | .fetchErr m =>
    if h : attempt < RETRIES then
      let r := fetchRetryGo outs (attempt + 1)
      (retryDelay attempt :: r.1, r.2)
    else ([], .error (.fetch m))
  | .otherErr m => ([], .error (.other m))
  | .resp s b =>
    if respOk s then ([], .ok s) else ([], .error (.badStatus s b))
termination_by RETRIES - attempt

/-- One delivery through `fetchRetry`, starting at attempt 0. -/
def fetchRetryModel (outs : Nat → Outcome) : List Nat × Except DeliveryError Nat :=
  fetchRetryGo outs 0

/-! ### Orchestrator dead-letter protocol (modelled from the spec) -/

/-- An item of the dead-letter envelope (§3 DeadLetterEnvelope): a rejected
raw line, or a normalized record that was being sent when delivery failed. -/
inductive DLItem where
  | line (ev : LogEvent)
  | record (e : OutEntry)
deriving DecidableEq

/-- An observable step of the orchestrator after the delivery call. -/
inductive OrchStep where
  | forward (envelope : List DLItem)
  | raiseErr (msg : String)
  | done (rejectedCount sentCount : Nat)
deriving DecidableEq

/-- Modelled from the spec: the Delivering → DeadLettering → Done/Failed tail
of the Pipeline Orchestrator state machine (§4.5 steps 5-7); `src/index.js` is
not part of the source snapshot. On delivery success the rejected lines (when
any) are forwarded and `{rejectedCount, sentCount}` is reported; on delivery
failure the full surviving-records set is forwarded in addition to the
rejected lines, and only after the forwarding attempt is the original
delivery error re-raised. -/
def orchestrateDelivery (rejected : List LogEvent) (surviving : List OutEntry)
    (outcome : Except String Unit) : List OrchStep :=
  match outcome with
  | .ok _ =>
    (if rejected.isEmpty then [] else [OrchStep.forward (rejected.map DLItem.line)])
      ++ [OrchStep.done rejected.length surviving.length]
  | .error m =>
    let env := rejected.map DLItem.line ++ surviving.map DLItem.record
    (if env.isEmpty then [] else [OrchStep.forward env]) ++ [OrchStep.raiseErr m]

/-! ### Concrete fixtures used by witnesses -/

/-- A logger configured like the tests: default backend, default `info`
threshold, a dotted version. -/
def optsA : LoggerOpts :=
  { apiKey := "key", funcName := "/services/func/v1", service := "svc",
    version := some "1.0.0" }

def lgA : Logger := mkLogger optsA

/-- An event whose message carries an `INFO` level token. -/
def evInfoHi : LogEvent :=
  { timestamp := 0, extractedFields := some { event := some "INFO\thi" } }

/-- An event whose message carries a `DEBUG` level token (filtered out at the
`info` threshold). -/
def evDebug : LogEvent :=
  { timestamp := 0, extractedFields := some { event := some "DEBUG\tx\n" } }

/-- An event with a severity token that is not on the scale. -/
def evBleep : LogEvent :=
  { timestamp := 0, extractedFields := some { event := some "BLEEP\thello" } }

/-- The normalized fields of `evBleep`. -/
def fieldsBleep : Fields := { message := "hello", level := "BLEEP" }

/-- The single delivered entry for `lgA` and `evInfoHi`. -/
def entryA : OutEntry :=
  { timestamp := 0
    message := "\x7b\"inv\":\x7b\"invocationId\":\"n/a\",\"functionName\":\"/services/func/v1\"\x7d,\"message\":\"hi\",\"level\":\"info\"\x7d"
    level := "INFO"
    service := "svc"
    ddsource := "aws-lambda"
    hostname := "lambda"
    ddtags := some "version:1.0.0" }

/- Basic facts about `jsIndexOf`. -/

theorem jsIndexOf_ge_neg_one (xs : List String) (s : String) :
    -1 ≤ jsIndexOf xs s := by
  induction xs with
  | nil => simp [jsIndexOf]
  | cons x xs ih =>
    simp only [jsIndexOf]
    split
    · omega
    · split
      · omega
      · omega

theorem jsIndexOf_eq_neg_one_iff (xs : List String) (s : String) :
    jsIndexOf xs s = -1 ↔ s ∉ xs := by
  induction xs with
  | nil => simp [jsIndexOf]
  | cons x xs ih =>
    simp only [jsIndexOf, List.mem_cons]
    by_cases hx : x = s
    · simp [hx]
    · have hne : ¬ s = x := fun h => hx h.symm
      simp only [if_neg hx]
      have hb := jsIndexOf_ge_neg_one xs s
      split
      · next h =>
        simp only [h] at ih ⊢
        simp [hne, ih.mp trivial]
      · next h =>
        constructor
        · intro hc; omega
        · intro hc
          exact absurd (ih.mpr (fun hmem => hc (Or.inr hmem))) h

theorem jsIndexOf_nonneg_of_mem (xs : List String) (s : String) (h : s ∈ xs) :
    0 ≤ jsIndexOf xs s := by
  have h1 := jsIndexOf_ge_neg_one xs s
  have h2 : jsIndexOf xs s ≠ -1 := by
    intro hc
    exact (jsIndexOf_eq_neg_one_iff xs s).mp hc h
  omega

/-- Position of a string in a list, following the wording of the specification
("the index of l in the fixed ascending scale"): `none` when the string is
not on the list. This is the spec-side counterpart of `jsIndexOf`. -/
def idxOnScale : List String → String → Option Nat
  | [], _ => none
  | x :: xs, s => if x = s then some 0 else (idxOnScale xs s).map (· + 1)

/-- The threshold index of claim C2 read literally: the index of the threshold
string itself on the scale, with a threshold not on the scale behaving
exactly as the threshold `INFO`. -/
def specThresholdIdxLiteral (t : String) : Nat :=
  (idxOnScale LOG_LEVELS t).getD ((idxOnScale LOG_LEVELS "INFO").getD 0)

/-- The filter predicate of claim C2 read literally: passes iff the index of the
record level is at least the (literal) threshold index. -/
def specPassesLiteral (l t : String) : Bool :=
  match idxOnScale LOG_LEVELS l with
  | some il => specThresholdIdxLiteral t ≤ il
  | none => false

/-- The threshold index with the case normalization done by the constructor:
the configured threshold is upper-cased before the scale lookup, and only a
threshold whose upper-casing is not on the scale behaves as `INFO`. -/
def specThresholdIdxUpper (t : String) : Nat :=
  (idxOnScale LOG_LEVELS (jsToUpper t)).getD ((idxOnScale LOG_LEVELS "INFO").getD 0)

/-- The filter predicate of claim C2 amended with the case normalization
the constructor performs on the threshold. -/
def specPassesUpper (l t : String) : Bool :=
  match idxOnScale LOG_LEVELS l with
  | some il => specThresholdIdxUpper t ≤ il
  | none => false

/-- Agreement of `jsIndexOf` with the spec-side index: it is the index when the
element occurs and `-1` otherwise. -/
theorem jsIndexOf_eq_idxOnScale (xs : List String) (s : String) :
    jsIndexOf xs s = match idxOnScale xs s with
      | some i => (i : Int)
      | none => -1 := by
  induction xs with
  | nil => rfl
  | cons x xs ih =>
    simp only [jsIndexOf, idxOnScale]
    by_cases hx : x = s
    · simp [hx]
    · simp only [if_neg hx, ih]
      cases h : idxOnScale xs s with
      | none => simp
      | some i =>
        simp only [Option.map_some']
        have : (i : Int) ≠ -1 := by omega
        simp only [if_neg this]
        push_cast
        ring

/-- The minimum level computed by the constructor equals the case-normalized
spec-side threshold index. -/
theorem mkMinLevel_eq (t : String) : mkMinLevel t = (specThresholdIdxUpper t : Int) := by
  unfold mkMinLevel specThresholdIdxUpper
  rw [jsIndexOf_eq_idxOnScale]
  cases h : idxOnScale LOG_LEVELS (jsToUpper t) with
  | none =>
    have h4 : jsIndexOf LOG_LEVELS "INFO" = 4 := by decide
    have hI : idxOnScale LOG_LEVELS "INFO" = some 4 := by decide
    simp [h4, hI]
  | some i =>
    have : (i : Int) ≠ -1 := by omega
    simp [this]

theorem mkMinLevel_nonneg (t : String) : 0 ≤ mkMinLevel t := by
  rw [mkMinLevel_eq]
  exact Int.ofNat_nonneg _

/-- The classification loop of `sendEntries` is the order-preserving
partition of the input: the rejected list is the sublist of events whose
entry creation fails, and the entry list is the in-order image of the
remaining events filtered by the severity check. -/
theorem processEvents_eq (lg : Logger) (evs : List LogEvent) :
    processEvents lg evs =
      (evs.filter (fun ev => (createLogEntry lg ev).isNone),
       (evs.filterMap (createLogEntry lg)).filter
         (fun e => shouldSendLevel lg.minLevel (jsToUpper e.level))) := by
  induction evs with
  | nil => rfl
  | cons ev evs ih =>
    simp only [processEvents, ih, List.filter_cons, List.filterMap_cons]
    cases h : createLogEntry lg ev with
    | none => simp
    | some e =>
      by_cases hs : shouldSendLevel lg.minLevel (jsToUpper e.level)
      · simp [hs, List.filter_cons]
      · simp [hs, List.filter_cons]

/- Step lemmas for the retry loop. -/

theorem fetchRetryGo_retry (outs : Nat → Outcome) (attempt : Nat) (m : String)
    (ho : outs attempt = Outcome.fetchErr m) (hlt : attempt < RETRIES) :
    fetchRetryGo outs attempt =
      (retryDelay attempt :: (fetchRetryGo outs (attempt + 1)).1,
       (fetchRetryGo outs (attempt + 1)).2) := by
  rw [fetchRetryGo, ho]
  simp [hlt]

theorem fetchRetryGo_exhausted (outs : Nat → Outcome) (attempt : Nat) (m : String)
    (ho : outs attempt = Outcome.fetchErr m) (hge : ¬ attempt < RETRIES) :
    fetchRetryGo outs attempt = ([], Except.error (DeliveryError.fetch m)) := by
  rw [fetchRetryGo, ho]
  simp [hge]

theorem fetchRetryGo_resp (outs : Nat → Outcome) (attempt : Nat) (s : Nat) (b : String)
    (ho : outs attempt = Outcome.resp s b) :
    fetchRetryGo outs attempt =
      if respOk s then ([], Except.ok s)
      else ([], Except.error (DeliveryError.badStatus s b)) := by
  rw [fetchRetryGo, ho]

/-! ### Claim theorems -/

/-- C1. Dead-letter completeness on delivery failure: when the delivery step
raises after the surviving records were being sent, every one of those
records appears in the dead-letter envelope that is forwarded, and the
forwarding step comes before the delivery error propagates (the trace is
exactly: forward the envelope, then re-raise the error). -/
theorem deadLetter_completeness_on_failure (rejected : List LogEvent)
    (surviving : List OutEntry) (m : String) (hs : surviving ≠ []) :
    ∃ env, orchestrateDelivery rejected surviving (Except.error m)
        = [OrchStep.forward env, OrchStep.raiseErr m]
      ∧ ∀ r ∈ surviving, DLItem.record r ∈ env := by
  refine ⟨rejected.map DLItem.line ++ surviving.map DLItem.record, ?_, ?_⟩
  · have hne : ¬ (rejected.map DLItem.line ++ surviving.map DLItem.record).isEmpty = true := by
      simp [List.isEmpty_iff, hs]
    simp [orchestrateDelivery, hne]
  · intro r hr
    exact List.mem_append_right _ (List.mem_map_of_mem DLItem.record hr)

/-- Witness for C1 at a concrete one-record failure. -/
theorem deadLetter_completeness_on_failure_witness :
    [entryA] ≠ ([] : List OutEntry)
    ∧ ∃ env, orchestrateDelivery [] [entryA] (Except.error "that went wrong")
        = [OrchStep.forward env, OrchStep.raiseErr "that went wrong"]
      ∧ ∀ r ∈ [entryA], DLItem.record r ∈ env :=
  ⟨by simp,
   deadLetter_completeness_on_failure [] [entryA] "that went wrong" (by simp)⟩

/-- C2 counterexample. The claim read literally compares the configured
threshold string itself against the (upper-case) scale: then the threshold
`"warn"` is not on the scale and must behave as `INFO`, so an `INFO` record
would pass. The code upper-cases the threshold first, so `"warn"` behaves as
`WARN` and the `INFO` record is dropped. -/
theorem severity_filter_literal_counterexample :
    specPassesLiteral "INFO" "warn" = true
    ∧ shouldSendLevel (mkMinLevel "warn") "INFO" = false
    ∧ shouldSendLevel (mkMinLevel "warn") "INFO"
        ≠ specPassesLiteral "INFO" "warn" := by
  refine ⟨by decide, by decide, by decide⟩

/-- C2 (amended): the threshold is upper-cased before the scale lookup; with
that normalization the filter passes a level `l` iff the index of `l` on the
ascending scale is at least the index of the normalized threshold, and a
threshold whose upper-casing is not on the scale behaves exactly as `INFO`. -/
theorem severity_filter_ordering (l t : String) :
    shouldSendLevel (mkMinLevel t) l = specPassesUpper l t := by
  unfold shouldSendLevel specPassesUpper
  rw [mkMinLevel_eq, jsIndexOf_eq_idxOnScale]
  cases h : idxOnScale LOG_LEVELS l with
  | none =>
    simp only [ge_iff_le, decide_eq_false_iff_not, not_le]
    have := Int.ofNat_nonneg (specThresholdIdxUpper t)
    omega
  | some il =>
    simp only [ge_iff_le]
    rw [decide_eq_decide]
    omega

/-- C3. Retry policy on transport errors: when every attempt fails with a
`FetchError`, the loop makes the initial attempt plus `RETRIES` retries,
waits the exponential backoff delay `2 ^ attempt * 1000` ms (1 s, 2 s) before
each retry, and finally raises the last transport error encountered. -/
theorem fetchRetry_transport_policy (outs : Nat → Outcome) (m0 m1 m2 : String)
    (h0 : outs 0 = Outcome.fetchErr m0) (h1 : outs 1 = Outcome.fetchErr m1)
    (h2 : outs 2 = Outcome.fetchErr m2) :
    fetchRetryModel outs
        = ([retryDelay 0, retryDelay 1], Except.error (DeliveryError.fetch m2))
      ∧ retryDelay 0 = 1000 ∧ retryDelay 1 = 2000
      ∧ ∀ n, retryDelay n = 2 ^ n * 1000 := by
  refine ⟨?_, rfl, rfl, fun n => rfl⟩
  rw [fetchRetryModel,
    fetchRetryGo_retry outs 0 m0 h0 (by decide),
    fetchRetryGo_retry outs 1 m1 h1 (by decide),
    fetchRetryGo_exhausted outs 2 m2 h2 (by decide)]

/-- Witness for C3: all attempts reset the connection. -/
theorem fetchRetry_transport_policy_witness :
    ((fun _ => Outcome.fetchErr "reset") 0 = Outcome.fetchErr "reset")
    ∧ (fetchRetryModel (fun _ => Outcome.fetchErr "reset")
        = ([retryDelay 0, retryDelay 1], Except.error (DeliveryError.fetch "reset"))
      ∧ retryDelay 0 = 1000 ∧ retryDelay 1 = 2000
      ∧ ∀ n, retryDelay n = 2 ^ n * 1000) :=
  ⟨rfl, fetchRetry_transport_policy (fun _ => Outcome.fetchErr "reset")
    "reset" "reset" "reset" rfl rfl rfl⟩

/-- C4. Non-retryable rejection: as soon as an attempt receives a non-2xx
response, the loop raises at once — no backoff delay is waited and no further
attempt is made — and the message of the raised error embeds the response status
code and the response body text. -/
theorem fetchRetry_nonretryable_rejection (outs : Nat → Outcome) (attempt : Nat)
    (s : Nat) (b : String) (ho : outs attempt = Outcome.resp s b)
    (hbad : respOk s = false) :
    fetchRetryGo outs attempt = ([], Except.error (DeliveryError.badStatus s b))
      ∧ ∃ pre mid, errMessage (DeliveryError.badStatus s b)
          = pre ++ toString s ++ mid ++ b := by
  refine ⟨?_, "Failed to send logs with status ", ": ", rfl⟩
  rw [fetchRetryGo_resp outs attempt s b ho, hbad]
  simp

/-- Witness for C4: HTTP 403 with body "that went wrong" on the first
attempt. -/
theorem fetchRetry_nonretryable_rejection_witness :
    ((fun _ => Outcome.resp 403 "that went wrong") 0
        = Outcome.resp 403 "that went wrong")
    ∧ respOk 403 = false
    ∧ (fetchRetryGo (fun _ => Outcome.resp 403 "that went wrong") 0
        = ([], Except.error (DeliveryError.badStatus 403 "that went wrong"))
      ∧ ∃ pre mid, errMessage (DeliveryError.badStatus 403 "that went wrong")
          = pre ++ toString 403 ++ mid ++ "that went wrong") :=
  ⟨rfl, rfl, fetchRetry_nonretryable_rejection
    (fun _ => Outcome.resp 403 "that went wrong") 0 403 "that went wrong" rfl rfl⟩

/-- C5. Unknown severity: when the extracted severity candidate is not one of
the recognized scale values, the routing level of the produced entry is exactly
`INFO`, while the candidate is preserved lower-cased in the `level` field of
the JSON-stringified detail object that the message of the entry consists of. -/
theorem createLogEntry_unknown_severity (lg : Logger) (ev : LogEvent) (f : Fields)
    (hf : extractFields ev = some f) (hl : f.level ∉ LOG_LEVELS) :
    createLogEntry lg ev
        = some ⟨ev.timestamp, stringifyDetail (detailOf lg f), "INFO"⟩
    ∧ (detailOf lg f).level = jsToLower f.level
    ∧ ∃ pre post, stringifyDetail (detailOf lg f)
        = pre ++ (",\"level\":" ++ jsonStr (jsToLower f.level)) ++ post := by
  have hidx := (jsIndexOf_eq_neg_one_iff LOG_LEVELS f.level).mpr hl
  refine ⟨?_, rfl, ?_⟩
  · unfold createLogEntry
    rw [hf]
    simp [hidx]
  · refine ⟨"\x7b\"inv\":\x7b\"invocationId\":" ++ jsonStr (detailOf lg f).invocationId
      ++ ",\"functionName\":" ++ jsonStr (detailOf lg f).functionName
      ++ "\x7d,\"message\":" ++ jsonStr (detailOf lg f).message,
      (match (detailOf lg f).timestamp with
        | some ts => ",\"timestamp\":" ++ jsonStr ts
        | none => "")
      ++ (match (detailOf lg f).logStream with
        | some ls => ",\"logStream\":" ++ jsonStr ls
        | none => "") ++ "\x7d", ?_⟩
    show stringifyDetail (detailOf lg f) = _
    rw [stringifyDetail]
    simp only [String.append_assoc]
    rfl

/-- Witness for C5: the severity token `BLEEP` routes as `INFO` and survives
lower-cased as `bleep` inside the detail object. -/
theorem createLogEntry_unknown_severity_witness :
    extractFields evBleep = some fieldsBleep
    ∧ fieldsBleep.level ∉ LOG_LEVELS
    ∧ (createLogEntry lgA evBleep
          = some ⟨evBleep.timestamp, stringifyDetail (detailOf lgA fieldsBleep), "INFO"⟩
      ∧ (detailOf lgA fieldsBleep).level = jsToLower fieldsBleep.level
      ∧ ∃ pre post, stringifyDetail (detailOf lgA fieldsBleep)
          = pre ++ (",\"level\":" ++ jsonStr (jsToLower fieldsBleep.level)) ++ post) :=
  ⟨by decide, by decide,
   createLogEntry_unknown_severity lgA evBleep fieldsBleep (by decide) (by decide)⟩

/-- C6. Empty-set no-op: when no entry survives classification, `sendEntries`
issues no network request and reports zero sent. -/
theorem sendEntries_empty_noop (lg : Logger) (evs : List LogEvent)
    (h : (processEvents lg evs).2 = []) :
    (sendEntries lg evs).2 = none ∧ (sendEntries lg evs).1.sent = 0 := by
  simp [sendEntries, h]

/-- Witness for C6: a lone `DEBUG` event at the default `info` threshold is
filtered, leaving nothing to send. -/
theorem sendEntries_empty_noop_witness :
    (processEvents lgA [evDebug]).2 = []
    ∧ ((sendEntries lgA [evDebug]).2 = none ∧ (sendEntries lgA [evDebug]).1.sent = 0) :=
  ⟨by decide, sendEntries_empty_noop lgA [evDebug] (by decide)⟩

/-- C7. Outbound entry shape: every entry of a posted payload carries the
configured service, `ddsource = "aws-lambda"`, `hostname = "lambda"`, and
`ddtags = "version:" ++ v` exactly when a (truthy, i.e. non-empty) version
`v` was configured at construction time. -/
theorem sendEntries_entry_shape (opts : LoggerOpts) (evs : List LogEvent)
    (payload : List OutEntry) (e : OutEntry)
    (hreq : (sendEntries (mkLogger opts) evs).2 = some payload) (he : e ∈ payload) :
    e.service = opts.service ∧ e.ddsource = "aws-lambda" ∧ e.hostname = "lambda"
    ∧ (∀ v, opts.version = some v → v ≠ "" → e.ddtags = some ("version:" ++ v))
    ∧ (opts.version = none → e.ddtags = none)
    ∧ (opts.version = some "" → e.ddtags = none) := by
  simp only [sendEntries] at hreq
  split at hreq
  · exact absurd hreq (by simp)
  · rw [Option.some_inj] at hreq
    subst hreq
    rcases List.mem_map.mp he with ⟨x, _, rfl⟩
    refine ⟨rfl, rfl, rfl, ?_, ?_, ?_⟩
    · intro v hv hne
      simp [mergeBase, mkLogger, mkBaseEntry, hv, hne]
    · intro hv
      simp [mergeBase, mkLogger, mkBaseEntry, hv]
    · intro hv
      simp [mergeBase, mkLogger, mkBaseEntry, hv]

/-- Witness for C7 at a concrete configuration with version `1.0.0`. -/
theorem sendEntries_entry_shape_witness :
    (sendEntries (mkLogger optsA) [evInfoHi]).2 = some [entryA]
    ∧ entryA ∈ [entryA]
    ∧ (entryA.service = optsA.service ∧ entryA.ddsource = "aws-lambda"
      ∧ entryA.hostname = "lambda"
      ∧ (∀ v, optsA.version = some v → v ≠ "" → entryA.ddtags = some ("version:" ++ v))
      ∧ (optsA.version = none → entryA.ddtags = none)
      ∧ (optsA.version = some "" → entryA.ddtags = none)) :=
  ⟨by decide, by decide,
   sendEntries_entry_shape optsA [evInfoHi] [entryA] entryA (by decide) (by decide)⟩

/-- C8. Completion report: on a successful delivery, the final orchestrator
step reports the number of lines whose extraction failed as the rejected
count, and the number of records posted to the intake endpoint as the sent
count (the Done step is modelled from the spec; the counts come from the
`sendEntries` code). -/
theorem completion_report_counts (lg : Logger) (evs : List LogEvent) :
    (orchestrateDelivery (sendEntries lg evs).1.rejected
        (((sendEntries lg evs).2).getD []) (Except.ok ())).getLast?
      = some (OrchStep.done
          (evs.countP (fun ev => (createLogEntry lg ev).isNone))
          ((evs.filterMap (createLogEntry lg)).countP
            (fun e => shouldSendLevel lg.minLevel (jsToUpper e.level)))) := by
  have hp := processEvents_eq lg evs
  simp only [orchestrateDelivery, List.getLast?_concat, Option.some_inj]
  simp only [sendEntries, hp]
  by_cases hL :
      ((evs.filterMap (createLogEntry lg)).filter
        (fun e => shouldSendLevel lg.minLevel (jsToUpper e.level))) = []
  · simp [hL, List.countP_eq_length_filter]
  · have hb : ((evs.filterMap (createLogEntry lg)).filter
        (fun e => shouldSendLevel lg.minLevel (jsToUpper e.level))).isEmpty = false := by
      simpa [List.isEmpty_iff] using hL
    simp [hb, List.countP_eq_length_filter]

/-- C9. Partition invariant of `sendEntries`: the rejected list is exactly the
in-order sublist of events whose entry creation fails; the delivered payload
is exactly the in-order entries of the remaining events that pass the
severity filter, merged with the base entry; and the sent count is the length
of that payload. Each event therefore lands in exactly one bucket. -/
theorem sendEntries_partition_invariant (lg : Logger) (evs : List LogEvent) :
    (sendEntries lg evs).1.rejected
        = evs.filter (fun ev => (createLogEntry lg ev).isNone)
    ∧ ((sendEntries lg evs).2.getD [])
        = ((evs.filterMap (createLogEntry lg)).filter
            (fun e => shouldSendLevel lg.minLevel (jsToUpper e.level))).map
            (mergeBase lg.baseEntry)
    ∧ (sendEntries lg evs).1.sent
        = ((evs.filterMap (createLogEntry lg)).filter
            (fun e => shouldSendLevel lg.minLevel (jsToUpper e.level))).length := by
  have hp := processEvents_eq lg evs
  refine ⟨?_, ?_, ?_⟩
  · simp [sendEntries, hp]
  · simp only [sendEntries, hp]
    by_cases hL :
        ((evs.filterMap (createLogEntry lg)).filter
          (fun e => shouldSendLevel lg.minLevel (jsToUpper e.level))) = []
    · simp [hL]
    · have hb : ((evs.filterMap (createLogEntry lg)).filter
          (fun e => shouldSendLevel lg.minLevel (jsToUpper e.level))).isEmpty = false := by
        simpa [List.isEmpty_iff] using hL
      simp [hb]
  · simp [sendEntries, hp]

/-- C10. Case-sensitive filter lookup: a level string that is not exactly one
of the upper-case scale values (lower-case spellings included) looks up to
index `-1`, which is below the configured minimum level (always ≥ 0), so
`shouldSendLevel` returns `false` for every threshold. -/
theorem shouldSendLevel_case_sensitive (l t : String) (h : l ∉ LOG_LEVELS) :
    jsIndexOf LOG_LEVELS l = -1 ∧ 0 ≤ mkMinLevel t
    ∧ shouldSendLevel (mkMinLevel t) l = false := by
  have hidx := (jsIndexOf_eq_neg_one_iff LOG_LEVELS l).mpr h
  have hm := mkMinLevel_nonneg t
  refine ⟨hidx, hm, ?_⟩
  unfold shouldSendLevel
  rw [hidx]
  simp only [ge_iff_le, decide_eq_false_iff_not, not_le]
  omega

/-- Witness for C10: the lower-case spelling `info` never passes, even at the
most permissive threshold `trace`. -/
theorem shouldSendLevel_case_sensitive_witness :
    "info" ∉ LOG_LEVELS
    ∧ (jsIndexOf LOG_LEVELS "info" = -1 ∧ 0 ≤ mkMinLevel "trace"
      ∧ shouldSendLevel (mkMinLevel "trace") "info" = false) :=
  ⟨by decide, shouldSendLevel_case_sensitive "info" "trace" (by decide)⟩

end DatadogFeeder
